import Mathlib

/-!
Shallow embedding of `testmux.go` (package testmux): a request-ordering
verification mux. A `Router` holds an ordered list of registered routes,
a cursor `index` incremented once per dispatch, and an append-only list
of diagnostic strings `errors`. Handlers write to a response recorder,
modelled by `Resp` (status code plus accumulated body text).
-/

namespace Testmux

/-- Inbound request data used by the mux: `req.Method` and `req.URL.Path`. -/
structure Request where
  method : String
  path : String
deriving DecidableEq, Repr

/-- A response writer/recorder: `httptest.NewRecorder()` starts with
code 200 and an empty body. `WriteHeader` sets the code, writes append
to the body. -/
structure Resp where
  code : Int := 200
  body : String := ""
deriving DecidableEq, Repr

/-- `w.WriteHeader(status)`. -/
def Resp.writeHeader (w : Resp) (status : Int) : Resp :=
  { w with code := status }

/-- Writing a string to the response body. -/
def Resp.write (w : Resp) (s : String) : Resp :=
  { w with body := w.body ++ s }

/-- `fmt.Fprintln(w, s)`: writes `s` followed by a newline. -/
def fprintln (w : Resp) (s : String) : Resp :=
  w.write (s ++ "\n")

/-- `http.NotFound(w, req)`: replies with a 404 status and the standard
"404 page not found" body line. -/
def notFound (w : Resp) : Resp :=
  fprintln (w.writeHeader 404) "404 page not found"

/-- A handler `func(http.ResponseWriter, *http.Request)`. -/
def Handler := Resp → Request → Resp

instance : Inhabited Handler := ⟨fun w _ => w⟩

/-- The `route` struct: method, path, handler and a `visited` flag
(zero value `false` at registration). -/
structure route where
  method : String
  path : String
  handler : Handler
  visited : Bool := false

instance : Inhabited route :=
  ⟨{ method := "", path := "", handler := default }⟩

/-- The `Router` struct. -/
structure Router where
  routes : List route := []
  index : Nat := 0
  errors : List String := []

/-- `addErrorf`: appends a formatted error string to the internal
collection (the callers only use `%s %s` formats, embedded as the
already-formatted string). -/
def Router.addErrorf (r : Router) (msg : String) : Router :=
  { r with errors := r.errors ++ [msg] }

/-- `RegisterFunc`: appends a new (unvisited) route. -/
def Router.registerFunc (r : Router) (method path : String) (handler : Handler) : Router :=
  { r with routes := r.routes ++ [{ method := method, path := path, handler := handler }] }

/-- `RegisterResp`: registers a handler that writes the given status and
then the body followed by a newline (`w.WriteHeader(status); fmt.Fprintln(w, body)`). -/
def Router.registerResp (r : Router) (method path : String) (status : Int) (body : String) : Router :=
  { r with routes := r.routes ++
      [{ method := method, path := path,
         handler := fun w _ => fprintln (w.writeHeader status) body }] }

/-- The loop condition of `match`: `!rte.visited && rte.method == method && rte.path == path`. -/
def routeCond (rte : route) (method path : String) : Bool :=
  !rte.visited && rte.method == method && rte.path == path

/-- The scan inside `match`: position of the first route satisfying
`routeCond`, with `i` the position of the head of the remaining list. -/
def matchIdx : List route → String → String → Nat → Option Nat
  | [], _, _, _ => none
  | rte :: rest, method, path, i =>
    if routeCond rte method path then some i
    else matchIdx rest method path (i + 1)

/-- `Router.match` (renamed: `match` is a Lean keyword): the position of
the first unvisited route with this method and path, together with the
flag `i == r.index` telling whether the route is hit in order. -/
def Router.findMatch (r : Router) (method path : String) : Option (Nat × Bool) :=
  match matchIdx r.routes method path 0 with
  | some i => some (i, i == r.index)
  | none => none

/-- `route.execute` on the route at position `i`: run the handler and
mark the route visited. Returns the updated route list and response. -/
def executeAt (routes : List route) (i : Nat) (w : Resp) (req : Request) :
    List route × Resp :=
  let rte := routes.getD i default
  (routes.set i { rte with visited := true }, rte.handler w req)

/-- `ServeHTTP`: dispatch one request. On a match, execute the handler
(marking the route visited) and record an out-of-order diagnostic when
the match is not at the cursor; otherwise reply 404 and record an
unexpected-request diagnostic. The cursor `index` is incremented
unconditionally. -/
def Router.serveHTTP (r : Router) (w : Resp) (req : Request) : Router × Resp :=
  match r.findMatch req.method req.path with
  | some (i, ordered) =>
    let (routes', w') := executeAt r.routes i w req
    let r1 : Router := { r with routes := routes' }
    let r2 :=
      if ordered then r1
      else r1.addErrorf ("Request out of order: " ++ req.method ++ " " ++ req.path)
    ({ r2 with index := r2.index + 1 }, w')
  | none =>
    let w' := notFound w
    let r1 := r.addErrorf ("Unexpected request: " ++ req.method ++ " " ++ req.path)
    ({ r1 with index := r1.index + 1 }, w')

/-- `AssertVisited`: appends an "Unvisited route" diagnostic for every
route still unvisited (in registration order), then returns whether the
accumulated error list is empty. The `t.Error` calls feed an external
reporter and carry no state of the Router itself. -/
def Router.assertVisited (r : Router) : Router × Bool :=
  let r' := r.routes.foldl
    (fun acc rte =>
      if !rte.visited then
        acc.addErrorf ("Unvisited route: " ++ rte.method ++ " " ++ rte.path)
      else acc) r
  (r', r'.errors.length == 0)

end Testmux

namespace Testmux

/-- The "Unvisited route" diagnostics `AssertVisited` produces for a route
list, one per still-unvisited route, in registration order. -/
def unvisitedMsgs (rs : List route) : List String :=
  rs.filterMap (fun rte =>
    if rte.visited then none
    else some ("Unvisited route: " ++ rte.method ++ " " ++ rte.path))

theorem foldl_unvisited (rs : List route) (acc : Router) :
    rs.foldl (fun acc rte =>
      if !rte.visited then
        acc.addErrorf ("Unvisited route: " ++ rte.method ++ " " ++ rte.path)
      else acc) acc
      = { acc with errors := acc.errors ++ unvisitedMsgs rs } := by
  induction rs generalizing acc with
  | nil => simp [unvisitedMsgs]
  | cons rte rest ih =>
    rw [List.foldl_cons]
    cases h : rte.visited with
    | true =>
      rw [if_neg (by simp [h]), ih]
      simp [unvisitedMsgs, List.filterMap_cons, h]
    | false =>
      rw [if_pos (by simp [h]), ih]
      simp [unvisitedMsgs, List.filterMap_cons, h, Router.addErrorf]

/-- Closed form of `AssertVisited`: it appends the unvisited-route
diagnostics to the error list and reports whether the result is empty. -/
theorem assertVisited_spec (r : Router) :
    r.assertVisited =
      ({ r with errors := r.errors ++ unvisitedMsgs r.routes },
        (r.errors ++ unvisitedMsgs r.routes).length == 0) := by
  unfold Router.assertVisited
  rw [foldl_unvisited]

theorem matchIdx_some (rs : List route) (m p : String) (n i : Nat)
    (h : matchIdx rs m p n = some i) :
    n ≤ i ∧ i - n < rs.length ∧
    routeCond (rs.getD (i - n) default) m p = true ∧
    ∀ j, j < i - n → routeCond (rs.getD j default) m p = false := by
  induction rs generalizing n with
  | nil => simp [matchIdx] at h
  | cons rte rest ih =>
    cases hc : routeCond rte m p with
    | true =>
      simp [matchIdx, hc] at h
      subst h
      refine ⟨Nat.le_refl n, by simp, by simpa [Nat.sub_self] using hc, ?_⟩
      intro j hj
      omega
    | false =>
      simp only [matchIdx, hc, Bool.false_eq_true, if_false] at h
      obtain ⟨h1, h2, h3, h4⟩ := ih (n + 1) h
      have hin : i - n = (i - (n + 1)) + 1 := by omega
      refine ⟨by omega, by simp; omega, ?_, ?_⟩
      · rw [hin, List.getD_cons_succ]
        exact h3
      · intro j hj
        cases j with
        | zero => simpa using hc
        | succ j' =>
          rw [List.getD_cons_succ]
          exact h4 j' (by omega)

theorem matchIdx_none (rs : List route) (m p : String) (n : Nat)
    (h : matchIdx rs m p n = none) :
    ∀ j, j < rs.length → routeCond (rs.getD j default) m p = false := by
  induction rs generalizing n with
  | nil => intro j hj; simp at hj
  | cons rte rest ih =>
    intro j hj
    cases hc : routeCond rte m p with
    | true => simp [matchIdx, hc] at h
    | false =>
      simp only [matchIdx, hc, Bool.false_eq_true, if_false] at h
      cases j with
      | zero => simpa using hc
      | succ j' =>
        rw [List.getD_cons_succ]
        exact ih (n + 1) h j' (by simpa using hj)

theorem matchIdx_eq_none (rs : List route) (m p : String) (n : Nat)
    (h : ∀ rte ∈ rs, routeCond rte m p = false) : matchIdx rs m p n = none := by
  induction rs generalizing n with
  | nil => rfl
  | cons rte rest ih =>
    simp only [matchIdx, h rte (by simp), Bool.false_eq_true, if_false]
    exact ih (n + 1) (fun v hv => h v (by simp [hv]))

theorem matchIdx_append (vs : List route) (rte : route) (rest : List route)
    (m p : String) (n : Nat)
    (hvs : ∀ v ∈ vs, v.visited = true) (hc : routeCond rte m p = true) :
    matchIdx (vs ++ rte :: rest) m p n = some (n + vs.length) := by
  induction vs generalizing n with
  | nil => simp [matchIdx, hc]
  | cons v vs ih =>
    have hv : routeCond v m p = false := by
      simp [routeCond, hvs v (by simp)]
    simp only [List.cons_append, matchIdx, hv, Bool.false_eq_true, if_false,
      List.append_eq]
    rw [ih (n + 1) (fun x hx => hvs x (by simp [hx]))]
    simp only [Option.some.injEq, List.length_cons]
    omega

theorem getD_append_len (vs : List route) (rte : route) (rest : List route) :
    (vs ++ rte :: rest).getD vs.length default = rte := by
  rw [List.getD_append_right _ _ _ _ (Nat.le_refl _)]
  simp

theorem set_append_len (vs : List route) (rte rte' : route) (rest : List route) :
    (vs ++ rte :: rest).set vs.length rte' = vs ++ rte' :: rest := by
  rw [List.set_append]
  simp

theorem getD_set_ne (l : List route) (k j : Nat) (a : route) (h : k ≠ j) :
    (l.set k a).getD j default = l.getD j default := by
  rcases Nat.lt_or_ge j l.length with hj | hj
  · rw [List.getD_eq_getElem _ _ (by simpa using hj), List.getD_eq_getElem _ _ hj]
    exact List.getElem_set_ne h _
  · rw [List.getD_eq_default _ _ (by simpa using hj), List.getD_eq_default _ _ hj]

theorem getD_set_self (l : List route) (k : Nat) (a : route) (h : k < l.length) :
    (l.set k a).getD k default = a := by
  rw [List.getD_eq_getElem _ _ (by simpa using h)]
  exact List.getElem_set_self _

end Testmux

namespace Testmux

/-- One in-order dispatch: with all earlier routes visited, the cursor at
the next unvisited route, and a request carrying that route's method and
path, `ServeHTTP` runs the route's handler, marks it visited, advances
the cursor and records no diagnostic. -/
theorem serveHTTP_in_order (vs : List route) (rte : route) (rest : List route)
    (E : List String) (w : Resp)
    (hvs : ∀ v ∈ vs, v.visited = true) (hrte : rte.visited = false) :
    Router.serveHTTP ⟨vs ++ rte :: rest, vs.length, E⟩ w ⟨rte.method, rte.path⟩ =
      (⟨vs ++ { rte with visited := true } :: rest, vs.length + 1, E⟩,
        rte.handler w ⟨rte.method, rte.path⟩) := by
  have hc : routeCond rte rte.method rte.path = true := by simp [routeCond, hrte]
  have hm : matchIdx (vs ++ rte :: rest) rte.method rte.path 0 = some vs.length := by
    simpa using matchIdx_append vs rte rest rte.method rte.path 0 hvs hc
  have hlen : vs.length < (vs ++ rte :: rest).length := by simp
  have hg : (vs ++ rte :: rest)[vs.length] = rte := by
    rw [← List.getD_eq_getElem _ default hlen]
    exact getD_append_len vs rte rest
  simp [Router.serveHTTP, Router.findMatch, hm, executeAt, getD_append_len,
    set_append_len, hg]

/-- A route list turned into the requests that visit it in registration
order. -/
def routeRequests (rs : List route) : List Request :=
  rs.map (fun rte => ⟨rte.method, rte.path⟩)

/-- Dispatch a list of requests one after the other, each against a fresh
response recorder, keeping only the router state. -/
def dispatchAll (r : Router) (reqs : List Request) : Router :=
  reqs.foldl (fun acc req => (acc.serveHTTP {} req).1) r

theorem dispatchAll_in_order (pend : List route) (vs : List route) (E : List String)
    (hvs : ∀ v ∈ vs, v.visited = true) (hp : ∀ v ∈ pend, v.visited = false) :
    dispatchAll ⟨vs ++ pend, vs.length, E⟩ (routeRequests pend) =
      ⟨vs ++ pend.map (fun rte => { rte with visited := true }),
        vs.length + pend.length, E⟩ := by
  induction pend generalizing vs with
  | nil => simp [dispatchAll, routeRequests]
  | cons rte rest ih =>
    have h1 : Router.serveHTTP ⟨vs ++ rte :: rest, vs.length, E⟩ {} ⟨rte.method, rte.path⟩ =
        (⟨vs ++ { rte with visited := true } :: rest, vs.length + 1, E⟩,
          rte.handler {} ⟨rte.method, rte.path⟩) :=
      serveHTTP_in_order vs rte rest E {} hvs (hp rte (by simp))
    have hvs' : ∀ v ∈ vs ++ [{ rte with visited := true }], v.visited = true := by
      intro v hv
      rcases List.mem_append.mp hv with h | h
      · exact hvs v h
      · simp at h
        subst h
        rfl
    have h2 := ih (vs ++ [{ rte with visited := true }])
      hvs' (fun v hv => hp v (by simp [hv]))
    simp only [routeRequests, List.map_cons, dispatchAll, List.foldl_cons, h1]
    simp only [routeRequests, dispatchAll, List.append_assoc, List.cons_append,
      List.nil_append, List.length_append, List.length_cons, List.length_nil] at h2
    rw [h2]
    simp only [Router.mk.injEq, List.length_cons, List.map_cons]
    refine ⟨trivial, by omega, trivial⟩

/-- A registration turned into the route it appends: `RegisterFunc`'s
route literal. -/
def mkRoute (reg : String × String × Handler) : route :=
  { method := reg.1, path := reg.2.1, handler := reg.2.2 }

/-- Register a list of (method, path, handler) triples in order. -/
def registerAll (regs : List (String × String × Handler)) (r : Router) : Router :=
  regs.foldl (fun acc reg => acc.registerFunc reg.1 reg.2.1 reg.2.2) r

theorem registerAll_spec (regs : List (String × String × Handler)) (r : Router) :
    registerAll regs r = { r with routes := r.routes ++ regs.map mkRoute } := by
  induction regs generalizing r with
  | nil => simp [registerAll]
  | cons reg rest ih =>
    simp only [registerAll, List.foldl_cons, List.map_cons] at ih ⊢
    rw [ih]
    simp [Router.registerFunc, mkRoute]

end Testmux

namespace Testmux

theorem unvisitedMsgs_of_visited (rs : List route) (h : ∀ v ∈ rs, v.visited = true) :
    unvisitedMsgs rs = [] := by
  induction rs with
  | nil => rfl
  | cons rte rest ih =>
    have h1 : rte.visited = true := h rte (by simp)
    simp only [unvisitedMsgs, List.filterMap_cons, h1, if_true]
    simpa [unvisitedMsgs] using ih (fun v hv => h v (by simp [hv]))

/-- C1: for every sequence of registrations followed by dispatches issued
in exactly the registration order with exactly the registered
(method, path) pairs, `AssertVisited` returns true, the accumulated
diagnostic sequence is empty, and every registered route ends visited. -/
theorem C1_in_order_scenario (regs : List (String × String × Handler)) :
    ((dispatchAll (registerAll regs {}) (regs.map (fun reg => ⟨reg.1, reg.2.1⟩))).assertVisited).2 = true ∧
    (dispatchAll (registerAll regs {}) (regs.map (fun reg => ⟨reg.1, reg.2.1⟩))).errors = [] ∧
    (dispatchAll (registerAll regs {}) (regs.map (fun reg => ⟨reg.1, reg.2.1⟩))).routes.all
      (fun rte => rte.visited) = true := by
  have hreg : registerAll regs {} = ⟨regs.map mkRoute, 0, []⟩ := by
    rw [registerAll_spec]
    rfl
  have hreq : routeRequests (regs.map mkRoute) =
      regs.map (fun reg => ⟨reg.1, reg.2.1⟩) := by
    unfold routeRequests
    rw [List.map_map]
    rfl
  have hp : ∀ v ∈ regs.map mkRoute, v.visited = false := by
    intro v hv
    rw [List.mem_map] at hv
    obtain ⟨reg, _, rfl⟩ := hv
    rfl
  have hd : dispatchAll (registerAll regs {}) (regs.map (fun reg => ⟨reg.1, reg.2.1⟩)) =
      ⟨(regs.map mkRoute).map (fun rte => { rte with visited := true }),
        regs.length, []⟩ := by
    rw [hreg, ← hreq]
    have h := dispatchAll_in_order (regs.map mkRoute) [] []
      (by intro v hv; simp at hv) hp
    simpa using h
  rw [hd]
  have hall : ∀ v ∈ (regs.map mkRoute).map (fun rte => { rte with visited := true }),
      v.visited = true := by
    intro v hv
    rw [List.mem_map] at hv
    obtain ⟨rte, _, rfl⟩ := hv
    rfl
  refine ⟨?_, rfl, ?_⟩
  · rw [assertVisited_spec, unvisitedMsgs_of_visited _ hall]
    rfl
  · rw [List.all_eq_true]
    exact hall

/-- C2: `AssertVisited` appends one "Unvisited route: {method} {path}"
diagnostic per still-unvisited route, in the registry's insertion order,
and returns true iff the diagnostic sequence is empty after those
appends. -/
theorem C2_assertVisited_diagnostics (r : Router) :
    (r.assertVisited).1.errors = r.errors ++ unvisitedMsgs r.routes ∧
    ((r.assertVisited).2 = true ↔ (r.assertVisited).1.errors = []) := by
  rw [assertVisited_spec]
  refine ⟨rfl, ?_⟩
  simp [List.length_eq_zero]

/-- C3: a dispatch whose (method, path) matches no unvisited registered
route replies with HTTP 404, appends exactly one
"Unexpected request: {method} {path}" diagnostic, leaves the routes
unchanged, and still advances the cursor (the caller's request does not
fail). -/
theorem C3_unexpected_request (r : Router) (w : Resp) (req : Request)
    (h : ∀ rte ∈ r.routes, routeCond rte req.method req.path = false) :
    (r.serveHTTP w req).2.code = 404 ∧
    (r.serveHTTP w req).1.errors =
      r.errors ++ ["Unexpected request: " ++ req.method ++ " " ++ req.path] ∧
    (r.serveHTTP w req).1.routes = r.routes ∧
    (r.serveHTTP w req).1.index = r.index + 1 := by
  have hm : matchIdx r.routes req.method req.path 0 = none :=
    matchIdx_eq_none _ _ _ _ h
  simp [Router.serveHTTP, Router.findMatch, hm, notFound, fprintln, Resp.write,
    Resp.writeHeader, Router.addErrorf]

/-- Witness for C3: dispatching against an empty registry. -/
theorem C3_unexpected_request_witness :
    (Router.serveHTTP {} {} ⟨"GET", "/x"⟩).2.code = 404 ∧
    (Router.serveHTTP {} {} ⟨"GET", "/x"⟩).1.errors = ["Unexpected request: GET /x"] := by
  have h := C3_unexpected_request {} {} ⟨"GET", "/x"⟩ (by intro rte hr; simp at hr)
  refine ⟨h.1, ?_⟩
  rw [h.2.1]
  decide

/-- C4: a dispatch matching an unvisited route at a position other than
the cursor appends exactly one "Request out of order: {method} {path}"
diagnostic, still executes the matched route's handler (the caller sees
the registered response, not a 404), marks the route visited, and
advances the cursor. -/
theorem C4_out_of_order (r : Router) (w : Resp) (req : Request) (i : Nat) (ord : Bool)
    (h1 : r.findMatch req.method req.path = some (i, ord)) (h2 : i ≠ r.index) :
    (r.serveHTTP w req).1.errors =
        r.errors ++ ["Request out of order: " ++ req.method ++ " " ++ req.path] ∧
    (r.serveHTTP w req).2 = (r.routes.getD i default).handler w req ∧
    ((r.serveHTTP w req).1.routes.getD i default).visited = true ∧
    (r.serveHTTP w req).1.index = r.index + 1 := by
  have hm : matchIdx r.routes req.method req.path 0 = some i := by
    unfold Router.findMatch at h1
    cases hmm : matchIdx r.routes req.method req.path 0 with
    | none => rw [hmm] at h1; exact absurd h1 (by simp)
    | some j =>
      rw [hmm] at h1
      simp only [Option.some.injEq, Prod.mk.injEq] at h1
      rw [h1.1]
  have hb : (i == r.index) = false := by
    cases hbe : (i == r.index) with
    | false => rfl
    | true => exact absurd (by simpa using hbe) h2
  have hlt : i < r.routes.length := by
    have := (matchIdx_some r.routes req.method req.path 0 i hm).2.1
    simpa using this
  simp only [Router.serveHTTP, Router.findMatch, hm, hb, executeAt,
    Bool.false_eq_true, if_false, Router.addErrorf]
  refine ⟨trivial, trivial, ?_, trivial⟩
  rw [getD_set_self _ _ _ hlt]

end Testmux

namespace Testmux

/-- A successful `routeCond` requires the route to be unvisited. -/
theorem routeCond_visited (rte : route) (m p : String)
    (h : routeCond rte m p = true) : rte.visited = false := by
  simp only [routeCond, Bool.and_eq_true, Bool.not_eq_true'] at h
  exact h.1.1

/-- A registry with two unvisited routes sharing one (method, path) key
behind an already-consumed first slot. -/
def oooRouter : Router :=
  (({} : Router).registerResp "GET" "/a" 200 "").registerResp "PUT" "/b" 201 ""

/-- Witness for C4: dispatching PUT /b first, against `oooRouter`, matches
position 1 while the cursor is 0. -/
theorem C4_out_of_order_witness :
    (oooRouter.serveHTTP {} ⟨"PUT", "/b"⟩).1.errors =
      ["Request out of order: PUT /b"] ∧
    ((oooRouter.serveHTTP {} ⟨"PUT", "/b"⟩).1.routes.getD 1 default).visited = true := by
  have h := C4_out_of_order oooRouter {} ⟨"PUT", "/b"⟩ 1 false (by decide) (by decide)
  refine ⟨?_, h.2.2.1⟩
  rw [h.1]
  decide

end Testmux

namespace Testmux

/-- Scenario C's registry: GET /foo → 200, PUT /foo → 202, GET /bar → 201. -/
def scenarioCRouter : Router :=
  ((({} : Router).registerResp "GET" "/foo" 200 "").registerResp "PUT" "/foo" 202
      "").registerResp "GET" "/bar" 201 ""

/-- Scenario C, first dispatch: GET /foo. -/
def scenarioCStep1 : Router × Resp := scenarioCRouter.serveHTTP {} ⟨"GET", "/foo"⟩

/-- Scenario C, second dispatch: GET /bar. -/
def scenarioCStep2 : Router × Resp := scenarioCStep1.1.serveHTTP {} ⟨"GET", "/bar"⟩

/-- Scenario C, third dispatch: PUT /foo. -/
def scenarioCStep3 : Router × Resp := scenarioCStep2.1.serveHTTP {} ⟨"PUT", "/foo"⟩

/-- C5 counterexample: in scenario C the three statuses are 200, 201, 202,
but the final diagnostic sequence is NOT
["Request out of order: PUT /foo", "Request out of order: GET /bar"]:
each out-of-order diagnostic is appended at its own dispatch, so the
GET /bar diagnostic (second dispatch) precedes the PUT /foo one (third). -/
theorem C5_counterexample :
    ¬ (scenarioCStep1.2.code = 200 ∧ scenarioCStep2.2.code = 201 ∧
       scenarioCStep3.2.code = 202 ∧
       scenarioCStep3.1.errors =
         ["Request out of order: PUT /foo", "Request out of order: GET /bar"]) := by
  decide

/-- C5 (amended): register GET /foo → 200, PUT /foo → 202, GET /bar → 201,
then dispatch GET /foo, GET /bar, PUT /foo: the responses have statuses
200, 201 and 202 respectively, and the accumulated diagnostics equal
["Request out of order: GET /bar", "Request out of order: PUT /foo"] —
the two out-of-order diagnostics in dispatch order. -/
theorem C5_scenarioC :
    scenarioCStep1.2.code = 200 ∧ scenarioCStep2.2.code = 201 ∧
    scenarioCStep3.2.code = 202 ∧
    scenarioCStep3.1.errors =
      ["Request out of order: GET /bar", "Request out of order: PUT /foo"] := by
  decide

/-- C6: `match` always selects the first route in registration order that
is unvisited and carries the request's (method, path); consequently, of
two identically-keyed unvisited routes the selected slot is no later
than the earlier one and the later one stays unvisited after the
dispatch — duplicate keys are consumed in registration order, as a FIFO
queue per key. -/
theorem C6_first_match_fifo (r : Router) :
    (∀ m p i ord, r.findMatch m p = some (i, ord) →
      i < r.routes.length ∧
      routeCond (r.routes.getD i default) m p = true ∧
      ∀ j, j < i → routeCond (r.routes.getD j default) m p = false) ∧
    (∀ (i1 i2 : Nat) (w : Resp) (req : Request), i1 < i2 → i2 < r.routes.length →
      routeCond (r.routes.getD i1 default) req.method req.path = true →
      routeCond (r.routes.getD i2 default) req.method req.path = true →
      ∃ k ord, r.findMatch req.method req.path = some (k, ord) ∧ k ≤ i1 ∧
        ((r.serveHTTP w req).1.routes.getD i2 default).visited = false) := by
  constructor
  · intro m p i ord h
    have hm : matchIdx r.routes m p 0 = some i := by
      unfold Router.findMatch at h
      cases hmm : matchIdx r.routes m p 0 with
      | none => rw [hmm] at h; exact absurd h (by simp)
      | some j =>
        rw [hmm] at h
        simp only [Option.some.injEq, Prod.mk.injEq] at h
        rw [h.1]
    have hs := matchIdx_some r.routes m p 0 i hm
    exact ⟨by simpa using hs.2.1, by simpa using hs.2.2.1,
      fun j hj => by simpa using hs.2.2.2 j (by simpa using hj)⟩
  · intro i1 i2 w req h12 hlen hc1 hc2
    cases hm : matchIdx r.routes req.method req.path 0 with
    | none =>
      have hno := matchIdx_none r.routes req.method req.path 0 hm i1
        (Nat.lt_trans h12 hlen)
      rw [hc1] at hno
      exact absurd hno (by simp)
    | some k =>
      have hs := matchIdx_some r.routes req.method req.path 0 k hm
      have hk1 : k ≤ i1 := by
        by_contra hgt
        have hfalse := hs.2.2.2 i1 (by omega)
        rw [hc1] at hfalse
        exact absurd hfalse (by simp)
      have hne : k ≠ i2 := by omega
      refine ⟨k, k == r.index, ?_, hk1, ?_⟩
      · unfold Router.findMatch
        rw [hm]
      · have hvis : (r.routes.getD i2 default).visited = false :=
          routeCond_visited _ _ _ hc2
        cases hb : (k == r.index) with
        | true =>
          simp only [Router.serveHTTP, Router.findMatch, hm, executeAt, hb, if_true]
          rw [getD_set_ne _ _ _ _ hne]
          exact hvis
        | false =>
          simp only [Router.serveHTTP, Router.findMatch, hm, executeAt, hb,
            Bool.false_eq_true, if_false, Router.addErrorf]
          rw [getD_set_ne _ _ _ _ hne]
          exact hvis

/-- A registry holding two unvisited routes with the same GET /a key. -/
def dupRouter : Router :=
  (({} : Router).registerResp "GET" "/a" 200 "").registerResp "GET" "/a" 201 ""

/-- Witness for C6 on `dupRouter`: the first GET /a slot is selected, and
the duplicate at position 1 stays unvisited after the dispatch. -/
theorem C6_first_match_fifo_witness :
    (0 < dupRouter.routes.length ∧
      routeCond (dupRouter.routes.getD 0 default) "GET" "/a" = true) ∧
    ((dupRouter.serveHTTP {} ⟨"GET", "/a"⟩).1.routes.getD 1 default).visited = false := by
  have h1 := (C6_first_match_fifo dupRouter).1 "GET" "/a" 0 true (by decide)
  have h2 := (C6_first_match_fifo dupRouter).2 0 1 {} ⟨"GET", "/a"⟩
    (by decide) (by decide) (by decide) (by decide)
  obtain ⟨k, ord, hk, hk1, hv⟩ := h2
  exact ⟨⟨h1.1, h1.2.1⟩, hv⟩

end Testmux

namespace Testmux

/-- Marking one slot visited never lowers any slot's visited flag. -/
theorem visited_mono_set (rs : List route) (k i : Nat) :
    (rs.getD i default).visited ≤
      ((rs.set k { rs.getD k default with visited := true }).getD i default).visited := by
  cases hv : (rs.getD i default).visited with
  | false =>
    exact Bool.false_le _
  | true =>
    rcases eq_or_ne k i with rfl | hne
    · rcases Nat.lt_or_ge k rs.length with hk | hk
      · have hset :
            ((rs.set k { rs.getD k default with visited := true }).getD k default).visited
              = true := by
          rw [getD_set_self _ _ _ hk]
        rw [hset]
      · rw [List.getD_eq_default _ _ hk] at hv
        exact absurd hv (by decide)
    · have hset :
          ((rs.set k { rs.getD k default with visited := true }).getD i default).visited
            = (rs.getD i default).visited := by
        rw [getD_set_ne _ _ _ _ hne]
      rw [hset, hv]

/-- Appending a route never lowers any slot's visited flag. -/
theorem visited_mono_append (rs : List route) (rte : route) (i : Nat) :
    (rs.getD i default).visited ≤ ((rs ++ [rte]).getD i default).visited := by
  rcases Nat.lt_or_ge i rs.length with hi | hi
  · rw [List.getD_append _ _ _ _ hi]
  · rw [List.getD_eq_default _ _ hi]
    exact Bool.false_le _

/-- C7: every Router operation preserves the data-model invariants:
`ServeHTTP` increments the cursor by exactly one regardless of the match
outcome; no operation decreases or resets the cursor; a route's visited
flag, once true, never reverts to false; and the error list only grows by
appending — existing entries are never removed or changed. -/
theorem C7_state_invariants (r : Router) (w : Resp) (req : Request)
    (m p : String) (hdl : Handler) (status : Int) (body : String) :
    ((r.serveHTTP w req).1.index = r.index + 1 ∧
      (∃ l, (r.serveHTTP w req).1.errors = r.errors ++ l) ∧
      ∀ i : Nat, (r.routes.getD i default).visited ≤
        ((r.serveHTTP w req).1.routes.getD i default).visited) ∧
    ((r.registerFunc m p hdl).index = r.index ∧
      (r.registerFunc m p hdl).errors = r.errors ∧
      ∀ i : Nat, (r.routes.getD i default).visited ≤
        ((r.registerFunc m p hdl).routes.getD i default).visited) ∧
    ((r.registerResp m p status body).index = r.index ∧
      (r.registerResp m p status body).errors = r.errors ∧
      ∀ i : Nat, (r.routes.getD i default).visited ≤
        ((r.registerResp m p status body).routes.getD i default).visited) ∧
    ((r.assertVisited).1.index = r.index ∧
      (∃ l, (r.assertVisited).1.errors = r.errors ++ l) ∧
      (r.assertVisited).1.routes = r.routes) := by
  refine ⟨?_, ?_, ?_, ?_⟩
  · cases hm : matchIdx r.routes req.method req.path 0 with
    | none =>
      simp only [Router.serveHTTP, Router.findMatch, hm, Router.addErrorf]
      exact ⟨trivial, ⟨_, rfl⟩, fun i => le_refl _⟩
    | some k =>
      cases hb : (k == r.index) with
      | true =>
        simp only [Router.serveHTTP, Router.findMatch, hm, executeAt, hb, if_true]
        exact ⟨trivial, ⟨[], by simp⟩, fun i => visited_mono_set r.routes k i⟩
      | false =>
        simp only [Router.serveHTTP, Router.findMatch, hm, executeAt, hb,
          Bool.false_eq_true, if_false, Router.addErrorf]
        exact ⟨trivial, ⟨_, rfl⟩, fun i => visited_mono_set r.routes k i⟩
  · exact ⟨rfl, rfl, fun i => visited_mono_append r.routes _ i⟩
  · exact ⟨rfl, rfl, fun i => visited_mono_append r.routes _ i⟩
  · rw [assertVisited_spec]
    exact ⟨rfl, ⟨_, rfl⟩, rfl⟩

theorem unvisitedMsgs_ne_nil (rs : List route)
    (h : rs.any (fun rte => !rte.visited) = true) : unvisitedMsgs rs ≠ [] := by
  induction rs with
  | nil => simp at h
  | cons rte rest ih =>
    cases hv : rte.visited with
    | false => simp [unvisitedMsgs, List.filterMap_cons, hv]
    | true =>
      have h' : rest.any (fun rte => !rte.visited) = true := by
        simpa [hv] using h
      simpa [unvisitedMsgs, List.filterMap_cons, hv] using ih h'

/-- C8: `AssertVisited` is not idempotent: with at least one route still
unvisited, a second call re-appends the same nonempty block of
"Unvisited route" diagnostics, duplicating them in the error list. -/
theorem C8_assertVisited_not_idempotent (r : Router)
    (h : r.routes.any (fun rte => !rte.visited) = true) :
    ((r.assertVisited).1.assertVisited).1.errors =
      r.errors ++ unvisitedMsgs r.routes ++ unvisitedMsgs r.routes ∧
    unvisitedMsgs r.routes ≠ [] := by
  refine ⟨?_, unvisitedMsgs_ne_nil r.routes h⟩
  rw [assertVisited_spec r, assertVisited_spec]

/-- A registry with a single, never dispatched, route. -/
def unvisitedRouter : Router := ({} : Router).registerResp "GET" "/a" 200 ""

/-- Witness for C8: two verification calls on `unvisitedRouter` record the
unvisited-route diagnostic twice. -/
theorem C8_assertVisited_not_idempotent_witness :
    ((unvisitedRouter.assertVisited).1.assertVisited).1.errors =
      ["Unvisited route: GET /a", "Unvisited route: GET /a"] := by
  have h := C8_assertVisited_not_idempotent unvisitedRouter (by decide)
  rw [h.1]
  decide

/-- C9: `RegisterResp` appends one route carrying the given method and
path, initially unvisited, whose handler, when invoked, sets the response
status to the given code and then writes exactly the body followed by a
single trailing newline character. -/
theorem C9_registerResp_handler (r : Router) (m p : String) (status : Int)
    (body : String) (w : Resp) (req : Request) :
    (r.registerResp m p status body).routes.length = r.routes.length + 1 ∧
    ((r.registerResp m p status body).routes.getD r.routes.length default).method = m ∧
    ((r.registerResp m p status body).routes.getD r.routes.length default).path = p ∧
    ((r.registerResp m p status body).routes.getD r.routes.length default).visited = false ∧
    ((r.registerResp m p status body).routes.getD r.routes.length default).handler w req =
      { code := status, body := w.body ++ (body ++ "\n") } := by
  have hg : (r.registerResp m p status body).routes.getD r.routes.length default =
      { method := m, path := p,
        handler := fun w' _ => fprintln (w'.writeHeader status) body } := by
    unfold Router.registerResp
    exact getD_append_len r.routes _ []
  refine ⟨by simp [Router.registerResp], ?_, ?_, ?_, ?_⟩
  · rw [hg]
  · rw [hg]
  · rw [hg]
  · rw [hg]
    rfl

/-- C10: if `AssertVisited` returns true, an immediately following second
call also returns true and appends no diagnostics: the Router state
(routes, cursor and errors) is unchanged by the second call. -/
theorem C10_assertVisited_idempotent_on_success (r : Router)
    (h : (r.assertVisited).2 = true) :
    ((r.assertVisited).1.assertVisited).2 = true ∧
    ((r.assertVisited).1.assertVisited).1 = (r.assertVisited).1 := by
  rw [assertVisited_spec] at h
  have h0 : r.errors ++ unvisitedMsgs r.routes = [] := by
    simpa [List.length_eq_zero] using h
  obtain ⟨he, hm⟩ := List.append_eq_nil.mp h0
  rw [assertVisited_spec r, assertVisited_spec]
  constructor
  · simp [he, hm]
  · simp [he, hm]

/-- Witness for C10 on the empty registry, where verification succeeds. -/
theorem C10_assertVisited_idempotent_on_success_witness :
    ((Router.assertVisited {}).1.assertVisited).2 = true ∧
    ((Router.assertVisited {}).1.assertVisited).1 = (Router.assertVisited {}).1 :=
  C10_assertVisited_idempotent_on_success {} (by decide)

end Testmux
